import Mathlib

/-!
Shallow embedding of the solver/dispatch engine of the quantum_playground
repository (files `QuantVisualizer.py` and `SimPlayground.py`).

Modelling conventions:
* Python floats on the parameter/grid side are modelled by `ℚ` (exact
  arithmetic; makes the grid construction executable), wavefunction
  amplitudes and energies by `ℝ` (they involve `sin`, `sqrt`, `π`, `exp`).
* The simulation context (`quantsim` object) is a record; dictionary keys
  that may be absent are `Option` fields.  Reading an absent key raises
  `KeyError` in Python, so the solvers return `Except PyErr _`.
* `np.linspace(0, L, num=(L+dx)/dx)` converts its `num` argument to an
  integer by truncation toward zero (`pyInt`); `np.arange(a, b, dx)`
  produces `max 0 ⌈(b-a)/dx⌉` points `a + i·dx`.
* `simulate` returns the updated context together with the list of
  messages printed to stdout; the `Except` layer carries any exception.
  The error type also lists the spec's taxonomy (InvalidParameter,
  UnknownSystem, UnsupportedSystem) so that claims about those signals
  can be stated; the code as written never produces them.
-/

/-- Python exception / spec error taxonomy. -/
inductive PyErr where
  | keyError : PyErr
  | invalidParameter : PyErr
  | unknownSystem : PyErr
  | unsupportedSystem : PyErr
deriving DecidableEq

/-- The `sim_params` dictionary: the keys read or written by the solvers.
Absent keys are `none`. -/
structure SimParams where
  length : Option ℚ := none
  mass : Option ℚ := none
  dx : Option ℚ := none
  force_constant_k : Option ℚ := none
  num_modes : Option ℕ := none
  x_vals : Option (List ℚ) := none
  E_array : Option (List ℝ) := none
  ang_freq : Option ℝ := none
  kn_array : Option (List ℝ) := none

/-- The quantsim object: system identifier string, `exp_vals['length']`
(read by `SimPlayground.InfSqWell`), the `sim_params` dict, and the
`soln` / `prob_dens` attributes set by `simulate`.  `soln` is doubly
optional: outer `none` = attribute never set, inner `none` = attribute
set to Python `None` (the finite-well branch). -/
structure QuantSim where
  sys : String
  exp_vals_length : Option ℚ := none
  sim_params : SimParams
  soln : Option (Option (List (List ℝ))) := none
  prob_dens : Option (List (List ℝ)) := none

/-- Python `int()` applied to a rational: truncation toward zero. -/
def pyInt (q : ℚ) : ℤ :=
  if 0 ≤ q then ⌊q⌋ else -⌊-q⌋

/-- `np.linspace a b num`: `num` evenly spaced samples of `[a, b]`,
both endpoints included for `num ≥ 2`; `[a]` for `num = 1`; `[]` for 0. -/
def linspace (a b : ℚ) (num : ℕ) : List ℚ :=
  if num ≤ 1 then (List.range num).map (fun _ => a)
  else (List.range num).map (fun i : ℕ => a + (b - a) * (i : ℚ) / ((num : ℚ) - 1))

/-- `np.arange start stop step` (positive step): points `start + i·step`
for `i < ⌈(stop-start)/step⌉`. -/
def arange (start stop step : ℚ) : List ℚ :=
  (List.range (⌈(stop - start) / step⌉.toNat)).map
    (fun i : ℕ => start + step * (i : ℚ))

/-- Physicists' Hermite polynomials, as evaluated by
`np.polynomial.hermite.hermval` on the coefficient vector `e n`. -/
def hermiteH : ℕ → ℝ → ℝ
  | 0, _ => 1
  | 1, x => 2 * x
  | n + 2, x => 2 * x * hermiteH (n + 1) x - 2 * (n + 1) * hermiteH n x

namespace QuantVisualizer

/-- `hbar = 1` (module-level constant, `QuantVisualizer.py` line 7). -/
def hbar : ℝ := 1

/-- The square-well grid: `np.linspace(0, L, num=(L+dx)/dx)`
(`QuantVisualizer.py` line 51 and `SimPlayground.py` line 104). -/
def x_vals_isw (L dx : ℚ) : List ℚ :=
  linspace 0 L (pyInt ((L + dx) / dx)).toNat

/-- The square-well amplitude at position `x` for mode `n`:
`np.sqrt(L/2) * np.sin(kn * x)` with `kn = np.pi * n / L`. -/
noncomputable def wellAmplitude (L : ℝ) (n : ℕ) (x : ℝ) : ℝ :=
  Real.sqrt (L / 2) * Real.sin (Real.pi * n / L * x)

/-- The square-well energy for mode `n`: `(n*np.pi*hbar)**2/(2*m*L**2)`. -/
noncomputable def wellEnergy (m L : ℚ) (n : ℕ) : ℝ :=
  ((n : ℝ) * Real.pi * hbar) ^ 2 / (2 * (m : ℝ) * (L : ℝ) ^ 2)

/-- `QuantVisualizer.InfSqWell`: reads `length`, `mass`, `dx`, `num_modes`
from `sim_params` (KeyError if absent), builds the grid and the mode
arrays, stores `x_vals` and `E_array` back into `sim_params`, and returns
`(wfn_solns, prob_densities)` together with the mutated context. -/
noncomputable def InfSqWell (q : QuantSim) :
    Except PyErr (List (List ℝ) × List (List ℝ) × QuantSim) :=
  match q.sim_params.length, q.sim_params.mass, q.sim_params.dx,
      q.sim_params.num_modes with
  | some L, some _m, some dx, some num_of_wfns =>
    let x_vals : List ℚ := x_vals_isw L dx
    let n_array : List ℕ := (List.range num_of_wfns).map (fun i => i + 1)
    let wfn_solns : List (List ℝ) :=
      n_array.map (fun n => x_vals.map (fun x : ℚ => wellAmplitude L n x))
    let prob_densities : List (List ℝ) :=
      wfn_solns.map (fun w => w.map (fun a => a ^ 2))
    let energy_levels : List ℝ := n_array.map (fun n => wellEnergy _m L n)
    .ok (wfn_solns, prob_densities,
      { q with sim_params :=
        { q.sim_params with x_vals := some x_vals,
                            E_array := some energy_levels } })
  | _, _, _, _ => .error .keyError

/-- `QuantVisualizer.FinSqWell`: bare `return`, i.e. Python `None`. -/
def FinSqWell (_q : QuantSim) : Option (List (List ℝ)) := none

/-- The oscillator grid: `np.arange(-L, L, dx)`. -/
def x_vals_qho (L dx : ℚ) : List ℚ := arange (-L) L dx

/-- The oscillator angular frequency `w = np.sqrt(k/m)`. -/
noncomputable def angFreq (k m : ℚ) : ℝ := Real.sqrt ((k : ℝ) / (m : ℝ))

/-- The oscillator raw energies `E_array = (n_array + 0.5) * hbar * w`. -/
noncomputable def oscEnergy (k m : ℚ) (n : ℕ) : ℝ :=
  ((n : ℝ) + 0.5) * hbar * angFreq k m

/-- The oscillator amplitude at `x` for mode `n`:
`alpha * exp_decay * hermite(x, n)` with
`alpha = 1/np.sqrt(2**n * n!) * (m*w/(np.pi*hbar))**0.25`,
`exp_decay = np.exp(-(x**2/2) * (m*w/hbar))`,
`hermite(x, n) = H_n(np.sqrt(m*w/hbar) * x)`. -/
noncomputable def oscAmplitude (k m : ℚ) (n : ℕ) (x : ℝ) : ℝ :=
  (1 / Real.sqrt (2 ^ n * (Nat.factorial n)) *
      ((m : ℝ) * angFreq k m / (Real.pi * hbar)) ^ ((1 : ℝ) / 4)) *
    Real.exp (-(x ^ 2 / 2) * ((m : ℝ) * angFreq k m / hbar)) *
    hermiteH n (Real.sqrt ((m : ℝ) * angFreq k m / hbar) * x)

/-- `QuantVisualizer.ParabSqWell`: reads `length`, `mass`,
`force_constant_k`, `dx`, `num_modes` (KeyError if absent), builds the
grid over `[-L, L)`, computes amplitudes for modes `0..num_modes`,
stores `x_vals`, `E_array/w` and `ang_freq` into `sim_params`, and
returns `(wfn_solns, prob_densities)` with the mutated context. -/
noncomputable def ParabSqWell (q : QuantSim) :
    Except PyErr (List (List ℝ) × List (List ℝ) × QuantSim) :=
  match q.sim_params.length, q.sim_params.mass, q.sim_params.force_constant_k,
      q.sim_params.dx, q.sim_params.num_modes with
  | some L, some m, some k, some dx, some num_of_wfns =>
    let x_vals : List ℚ := x_vals_qho L dx
    let n_array : List ℕ := List.range (num_of_wfns + 1)
    let w : ℝ := angFreq k m
    let E_array : List ℝ := n_array.map (fun n => oscEnergy k m n)
    let wfn_solns : List (List ℝ) :=
      n_array.map (fun n => x_vals.map (fun x : ℚ => oscAmplitude k m n x))
    let prob_densities : List (List ℝ) :=
      wfn_solns.map (fun wl => wl.map (fun a => a ^ 2))
    .ok (wfn_solns, prob_densities,
      { q with sim_params :=
        { q.sim_params with x_vals := some x_vals,
                            E_array := some (E_array.map (fun e => e / w)),
                            ang_freq := some w } })
  | _, _, _, _, _ => .error .keyError

/-- The message printed by the dispatcher's fall-through branch. -/
def notFoundMsg : String := "System not found. Please reinitialize object."

/-- `QuantVisualizer.simulate`: dispatch on the alias lists, store results
on the context; the fall-through branch only prints a message.  The
second component of the result collects printed messages. -/
noncomputable def simulate (q : QuantSim) :
    Except PyErr (QuantSim × List String) :=
  if q.sys ∈ ["1", "Infinite Square Well", "ISW"] then
    match InfSqWell q with
    | .error e => .error e
    | .ok (soln, prob_dens, q') =>
        .ok ({ q' with soln := some (some soln),
                       prob_dens := some prob_dens }, [])
  else if q.sys ∈ ["2", "Finite Square Well", "FSW"] then
    .ok ({ q with soln := some (FinSqWell q) }, [])
  else if q.sys ∈ ["3", "Quantum Harmonic Oscillator", "QHO"] then
    match ParabSqWell q with
    | .error e => .error e
    | .ok (soln, prob_dens, q') =>
        .ok ({ q' with soln := some (some soln),
                       prob_dens := some prob_dens }, [])
  else
    .ok (q, [notFoundMsg])

end QuantVisualizer

namespace SimPlayground

/-- `SimPlayground.InfSqWell`: same computation as the QuantVisualizer
version except that `length` is read from `exp_vals`, `mass` is not
read, no energies are computed, and `kn_array` is precomputed as a list
and stored into `sim_params` alongside `x_vals`. -/
noncomputable def InfSqWell (q : QuantSim) :
    Except PyErr (List (List ℝ) × List (List ℝ) × QuantSim) :=
  match q.exp_vals_length, q.sim_params.dx, q.sim_params.num_modes with
  | some L, some dx, some num_of_wfns =>
    let x_vals : List ℚ := QuantVisualizer.x_vals_isw L dx
    let n_array : List ℕ := (List.range num_of_wfns).map (fun i => i + 1)
    let kn_array : List ℝ :=
      n_array.map (fun n : ℕ => Real.pi * (n : ℝ) / (L : ℝ))
    let wfn_solns : List (List ℝ) :=
      kn_array.map (fun kn =>
        x_vals.map (fun x : ℚ =>
          Real.sqrt ((L : ℝ) / 2) * Real.sin (kn * (x : ℝ))))
    let prob_densities : List (List ℝ) :=
      wfn_solns.map (fun w => w.map (fun a => a ^ 2))
    .ok (wfn_solns, prob_densities,
      { q with sim_params :=
        { q.sim_params with x_vals := some x_vals,
                            kn_array := some kn_array } })
  | _, _, _ => .error .keyError

end SimPlayground

namespace QuantVisualizer

/-- The list of square-well wavefunction sample arrays returned by
`InfSqWell`, one per mode `n = 1..nm`. -/
noncomputable def wellSolns (L dx : ℚ) (nm : ℕ) : List (List ℝ) :=
  (((List.range nm).map (fun i => i + 1) : List ℕ)).map
    (fun n => (x_vals_isw L dx).map (fun x : ℚ => wellAmplitude L n x))

/-- The squared square-well sample arrays returned by `InfSqWell`. -/
noncomputable def wellProbs (L dx : ℚ) (nm : ℕ) : List (List ℝ) :=
  (wellSolns L dx nm).map (fun w => w.map (fun a => a ^ 2))

/-- The square-well energy list stored by `InfSqWell` as `E_array`. -/
noncomputable def wellEnergies (m L : ℚ) (nm : ℕ) : List ℝ :=
  ((List.range nm).map (fun i => i + 1)).map (fun n => wellEnergy m L n)

/-- Unfolding lemma: the exact result of `InfSqWell` on a context whose
four required keys are present. -/
theorem InfSqWell_eq (q : QuantSim) (L m dx : ℚ) (nm : ℕ)
    (hL : q.sim_params.length = some L) (hm : q.sim_params.mass = some m)
    (hdx : q.sim_params.dx = some dx)
    (hnm : q.sim_params.num_modes = some nm) :
    InfSqWell q = .ok (wellSolns L dx nm, wellProbs L dx nm,
      { q with sim_params :=
        { q.sim_params with x_vals := some (x_vals_isw L dx),
                            E_array := some (wellEnergies m L nm) } }) := by
  rw [InfSqWell.eq_def, hL, hm, hdx, hnm]
  rfl

/-- The oscillator wavefunction sample arrays, one per mode `n = 0..nm`. -/
noncomputable def oscSolns (L m k dx : ℚ) (nm : ℕ) : List (List ℝ) :=
  (List.range (nm + 1)).map
    (fun n => (x_vals_qho L dx).map (fun x : ℚ => oscAmplitude k m n x))

/-- The squared oscillator sample arrays returned by `ParabSqWell`. -/
noncomputable def oscProbs (L m k dx : ℚ) (nm : ℕ) : List (List ℝ) :=
  (oscSolns L m k dx nm).map (fun wl => wl.map (fun a => a ^ 2))

/-- The oscillator energy list stored by `ParabSqWell` as `E_array`:
the raw energies divided elementwise by `w`. -/
noncomputable def oscStoredEnergies (k m : ℚ) (nm : ℕ) : List ℝ :=
  ((List.range (nm + 1)).map (fun n => oscEnergy k m n)).map
    (fun e => e / angFreq k m)

/-- Unfolding lemma: the exact result of `ParabSqWell` on a context whose
five required keys are present. -/
theorem ParabSqWell_eq (q : QuantSim) (L m k dx : ℚ) (nm : ℕ)
    (hL : q.sim_params.length = some L) (hm : q.sim_params.mass = some m)
    (hk : q.sim_params.force_constant_k = some k)
    (hdx : q.sim_params.dx = some dx)
    (hnm : q.sim_params.num_modes = some nm) :
    ParabSqWell q = .ok (oscSolns L m k dx nm, oscProbs L m k dx nm,
      { q with sim_params :=
        { q.sim_params with x_vals := some (x_vals_qho L dx),
                            E_array := some (oscStoredEnergies k m nm),
                            ang_freq := some (angFreq k m) } }) := by
  rw [ParabSqWell.eq_def, hL, hm, hk, hdx, hnm]
  rfl

end QuantVisualizer

namespace SimPlayground

/-- The `kn_array` computed and stored by `SimPlayground.InfSqWell`. -/
noncomputable def knArray (L : ℚ) (nm : ℕ) : List ℝ :=
  (((List.range nm).map (fun i => i + 1) : List ℕ)).map
    (fun n : ℕ => Real.pi * (n : ℝ) / (L : ℝ))

/-- The wavefunction sample arrays returned by `SimPlayground.InfSqWell`. -/
noncomputable def spSolns (L dx : ℚ) (nm : ℕ) : List (List ℝ) :=
  (knArray L nm).map (fun kn =>
    (QuantVisualizer.x_vals_isw L dx).map
      (fun x : ℚ => Real.sqrt ((L : ℝ) / 2) * Real.sin (kn * (x : ℝ))))

/-- The squared sample arrays returned by `SimPlayground.InfSqWell`. -/
noncomputable def spProbs (L dx : ℚ) (nm : ℕ) : List (List ℝ) :=
  (spSolns L dx nm).map (fun w => w.map (fun a => a ^ 2))

/-- Unfolding lemma: the exact result of `SimPlayground.InfSqWell` on a
context with `exp_vals['length']`, `dx` and `num_modes` present. -/
theorem spInfSqWell_eq (q : QuantSim) (L dx : ℚ) (nm : ℕ)
    (hL : q.exp_vals_length = some L) (hdx : q.sim_params.dx = some dx)
    (hnm : q.sim_params.num_modes = some nm) :
    InfSqWell q = .ok (spSolns L dx nm, spProbs L dx nm,
      { q with sim_params :=
        { q.sim_params with
            x_vals := some (QuantVisualizer.x_vals_isw L dx),
            kn_array := some (knArray L nm) } }) := by
  rw [InfSqWell.eq_def, hL, hdx, hnm]
  rfl

end SimPlayground

/-- A fresh square-well context with the given parameters, as built for
the infinite square well runs. -/
def wellSim (L m dx : ℚ) (nm : ℕ) : QuantSim :=
  { sys := "ISW",
    sim_params := { length := some L, mass := some m, dx := some dx,
                    num_modes := some nm } }

/-- A fresh oscillator context with the given parameters. -/
def oscSim (L m k dx : ℚ) (nm : ℕ) : QuantSim :=
  { sys := "QHO",
    sim_params := { length := some L, mass := some m, dx := some dx,
                    force_constant_k := some k, num_modes := some nm } }

/-- A context with system identifier matching no solver's alias set. -/
def unknownSim : QuantSim := { sys := "nonexistent", sim_params := {} }

/-- A context resolving to the finite square well. -/
def finWellSim : QuantSim := { sys := "FSW", sim_params := {} }

/-- Claim C7: after a successful solve, the solution, probability-density
and energy lists all have length `num_modes` for the square well and
`num_modes + 1` for the oscillator. -/
theorem shape_invariant (q : QuantSim) (L m k dx : ℚ) (nm : ℕ)
    (hL : q.sim_params.length = some L) (hm : q.sim_params.mass = some m)
    (hk : q.sim_params.force_constant_k = some k)
    (hdx : q.sim_params.dx = some dx)
    (hnm : q.sim_params.num_modes = some nm) :
    (∃ s p q', QuantVisualizer.InfSqWell q = .ok (s, p, q') ∧
        s.length = nm ∧ p.length = nm ∧
        ∃ es, q'.sim_params.E_array = some es ∧ es.length = nm) ∧
    (∃ s p q', QuantVisualizer.ParabSqWell q = .ok (s, p, q') ∧
        s.length = nm + 1 ∧ p.length = nm + 1 ∧
        ∃ es, q'.sim_params.E_array = some es ∧ es.length = nm + 1) := by
  constructor
  · refine ⟨_, _, _, QuantVisualizer.InfSqWell_eq q L m dx nm hL hm hdx hnm,
      ?_, ?_, _, rfl, ?_⟩ <;>
    simp [QuantVisualizer.wellSolns, QuantVisualizer.wellProbs,
      QuantVisualizer.wellEnergies]
  · refine ⟨_, _, _, QuantVisualizer.ParabSqWell_eq q L m k dx nm hL hm hk hdx hnm,
      ?_, ?_, _, rfl, ?_⟩ <;>
    simp [QuantVisualizer.oscSolns, QuantVisualizer.oscProbs,
      QuantVisualizer.oscStoredEnergies]

/-- Witness for C7 at `num_modes = 3`. -/
theorem shape_invariant_witness :
    (oscSim 10 1 1 (1/2) 3).sim_params.num_modes = some 3 ∧
    ((∃ s p q', QuantVisualizer.InfSqWell (oscSim 10 1 1 (1/2) 3) = .ok (s, p, q') ∧
        s.length = 3 ∧ p.length = 3 ∧
        ∃ es, q'.sim_params.E_array = some es ∧ es.length = 3) ∧
    (∃ s p q', QuantVisualizer.ParabSqWell (oscSim 10 1 1 (1/2) 3) = .ok (s, p, q') ∧
        s.length = 3 + 1 ∧ p.length = 3 + 1 ∧
        ∃ es, q'.sim_params.E_array = some es ∧ es.length = 3 + 1)) :=
  ⟨rfl, shape_invariant (oscSim 10 1 1 (1/2) 3) 10 1 1 (1/2) 3 rfl rfl rfl rfl rfl⟩

/-- Claim C2 counterexample: on the square well with all parameters
present and `num_modes = 0` (violating `num_modes ≥ 1`), the solver does
not fail with InvalidParameter; it returns successfully with empty
result lists. -/
theorem no_validation_counterexample :
    (QuantVisualizer.InfSqWell (wellSim 1 1 (1/2) 0)).isOk = true ∧
    QuantVisualizer.InfSqWell (wellSim 1 1 (1/2) 0) ≠
      .error .invalidParameter := by
  have h := QuantVisualizer.InfSqWell_eq (wellSim 1 1 (1/2) 0) 1 1 (1/2) 0
    rfl rfl rfl rfl
  exact ⟨by rw [h]; rfl, by rw [h]; exact fun hc => Except.noConfusion hc⟩

/-- Claim C2 (amended): the solvers perform no precondition validation.
With every required key present and `num_modes = 0` the square-well
solver succeeds, returning empty solution and probability lists, and
still stores the grid and an empty `E_array` into the context (so
results are left in the context). -/
theorem no_validation (q : QuantSim) (L m dx : ℚ)
    (hL : q.sim_params.length = some L) (hm : q.sim_params.mass = some m)
    (hdx : q.sim_params.dx = some dx)
    (hnm : q.sim_params.num_modes = some 0) :
    QuantVisualizer.InfSqWell q = .ok ([], [],
      { q with sim_params :=
        { q.sim_params with
            x_vals := some (QuantVisualizer.x_vals_isw L dx),
            E_array := some [] } }) := by
  have h := QuantVisualizer.InfSqWell_eq q L m dx 0 hL hm hdx hnm
  simpa [QuantVisualizer.wellSolns, QuantVisualizer.wellProbs,
    QuantVisualizer.wellEnergies] using h

/-- Witness for the amended C2 at a concrete context. -/
theorem no_validation_witness :
    (wellSim 1 1 (1/2) 0).sim_params.num_modes = some 0 ∧
    QuantVisualizer.InfSqWell (wellSim 1 1 (1/2) 0) = .ok ([], [],
      { wellSim 1 1 (1/2) 0 with sim_params :=
        { (wellSim 1 1 (1/2) 0).sim_params with
            x_vals := some (QuantVisualizer.x_vals_isw 1 (1/2)),
            E_array := some [] } }) :=
  ⟨rfl, no_validation (wellSim 1 1 (1/2) 0) 1 1 (1/2) rfl rfl rfl rfl⟩

/-- Claim C5 counterexample: the square-well solver does mutate the
context: starting from a context whose `sim_params` holds no `x_vals`,
the returned context holds the computed grid. -/
theorem solver_mutation_counterexample :
    (wellSim 1 1 (1/2) 1).sim_params.x_vals = none ∧
    (QuantVisualizer.InfSqWell (wellSim 1 1 (1/2) 1)).toOption.map
        (fun r => r.2.2.sim_params.x_vals) = some (some [0, 1/2, 1]) := by
  refine ⟨rfl, ?_⟩
  rw [QuantVisualizer.InfSqWell_eq (wellSim 1 1 (1/2) 1) 1 1 (1/2) 1
    rfl rfl rfl rfl]
  show some (some (QuantVisualizer.x_vals_isw 1 (1/2))) = some (some [0, 1/2, 1])
  have h : pyInt ((1 + 1/2) / (1/2)) = 3 := by
    unfold pyInt
    rw [if_pos (by norm_num)]
    norm_num
  unfold QuantVisualizer.x_vals_isw
  rw [h]
  show some (some (linspace 0 1 3)) = some (some [0, 1/2, 1])
  unfold linspace
  rw [if_neg (by norm_num)]
  simp only [List.range_succ, List.range_zero, List.map_append, List.map_cons,
    List.map_nil, List.nil_append, List.cons_append]
  norm_num

/-- Claim C5 (amended): beyond returning their result arrays the solvers
mutate the context's `sim_params`: the square well stores `x_vals` and
`E_array`, and the oscillator stores `x_vals`, `E_array` and `ang_freq`;
only `soln` and `prob_dens` are written by the dispatcher alone. -/
theorem solver_mutation (q : QuantSim) (L m k dx : ℚ) (nm : ℕ)
    (hL : q.sim_params.length = some L) (hm : q.sim_params.mass = some m)
    (hk : q.sim_params.force_constant_k = some k)
    (hdx : q.sim_params.dx = some dx)
    (hnm : q.sim_params.num_modes = some nm) :
    (∃ s p, QuantVisualizer.InfSqWell q = .ok (s, p,
      { q with sim_params :=
        { q.sim_params with
            x_vals := some (QuantVisualizer.x_vals_isw L dx),
            E_array := some (QuantVisualizer.wellEnergies m L nm) } })) ∧
    (∃ s p, QuantVisualizer.ParabSqWell q = .ok (s, p,
      { q with sim_params :=
        { q.sim_params with
            x_vals := some (QuantVisualizer.x_vals_qho L dx),
            E_array := some (QuantVisualizer.oscStoredEnergies k m nm),
            ang_freq := some (QuantVisualizer.angFreq k m) } })) :=
  ⟨⟨_, _, QuantVisualizer.InfSqWell_eq q L m dx nm hL hm hdx hnm⟩,
   ⟨_, _, QuantVisualizer.ParabSqWell_eq q L m k dx nm hL hm hk hdx hnm⟩⟩

/-- Witness for the amended C5 at a concrete context. -/
theorem solver_mutation_witness :
    (oscSim 10 1 1 (1/2) 3).sim_params.length = some 10 ∧
    ((∃ s p, QuantVisualizer.InfSqWell (oscSim 10 1 1 (1/2) 3) = .ok (s, p,
      { oscSim 10 1 1 (1/2) 3 with sim_params :=
        { (oscSim 10 1 1 (1/2) 3).sim_params with
            x_vals := some (QuantVisualizer.x_vals_isw 10 (1/2)),
            E_array := some (QuantVisualizer.wellEnergies 1 10 3) } })) ∧
    (∃ s p, QuantVisualizer.ParabSqWell (oscSim 10 1 1 (1/2) 3) = .ok (s, p,
      { oscSim 10 1 1 (1/2) 3 with sim_params :=
        { (oscSim 10 1 1 (1/2) 3).sim_params with
            x_vals := some (QuantVisualizer.x_vals_qho 10 (1/2)),
            E_array := some (QuantVisualizer.oscStoredEnergies 1 1 3),
            ang_freq := some (QuantVisualizer.angFreq 1 1) } }))) :=
  ⟨rfl, solver_mutation (oscSim 10 1 1 (1/2) 3) 10 1 1 (1/2) 3 rfl rfl rfl rfl rfl⟩

/-- Claim C3 counterexample: on a context whose system identifier matches
no alias set, `simulate` does not signal UnknownSystem to the caller; it
returns normally, printing a diagnostic, and the context (with `soln`
and `x_vals` absent) comes back unmodified. -/
theorem unknown_system_counterexample :
    QuantVisualizer.simulate unknownSim =
      .ok (unknownSim, [QuantVisualizer.notFoundMsg]) ∧
    QuantVisualizer.simulate unknownSim ≠ .error .unknownSystem ∧
    unknownSim.soln = none ∧ unknownSim.sim_params.x_vals = none := by
  have h : QuantVisualizer.simulate unknownSim =
      .ok (unknownSim, [QuantVisualizer.notFoundMsg]) := by
    unfold QuantVisualizer.simulate
    rw [if_neg (by decide), if_neg (by decide), if_neg (by decide)]
  exact ⟨h, by rw [h]; exact fun hc => Except.noConfusion hc, rfl, rfl⟩

/-- Claim C3 (amended): on a context whose system identifier matches no
alias set, `simulate` prints a "System not found" diagnostic (not an
error signalled to the caller), raises nothing, and returns the context
unmodified, so `grid` and `solution` stay absent if they were absent. -/
theorem unknown_system_behavior (q : QuantSim)
    (h1 : q.sys ∉ ["1", "Infinite Square Well", "ISW"])
    (h2 : q.sys ∉ ["2", "Finite Square Well", "FSW"])
    (h3 : q.sys ∉ ["3", "Quantum Harmonic Oscillator", "QHO"]) :
    QuantVisualizer.simulate q = .ok (q, [QuantVisualizer.notFoundMsg]) := by
  unfold QuantVisualizer.simulate
  rw [if_neg h1, if_neg h2, if_neg h3]

/-- Witness for the amended C3 at the concrete context `unknownSim`. -/
theorem unknown_system_behavior_witness :
    unknownSim.sys ∉ ["1", "Infinite Square Well", "ISW"] ∧
    QuantVisualizer.simulate unknownSim =
      .ok (unknownSim, [QuantVisualizer.notFoundMsg]) :=
  ⟨by decide,
   unknown_system_behavior unknownSim (by decide) (by decide) (by decide)⟩

/-- Claim C4 counterexample: on a context resolving to the finite square
well, `simulate` does not signal UnsupportedSystem (nor anything else):
it returns normally after storing Python `None` as the context's `soln`,
printing nothing. -/
theorem finite_well_counterexample :
    QuantVisualizer.simulate finWellSim =
      .ok ({ finWellSim with soln := some none }, []) ∧
    QuantVisualizer.simulate finWellSim ≠ .error .unsupportedSystem := by
  have h : QuantVisualizer.simulate finWellSim =
      .ok ({ finWellSim with soln := some none }, []) := by
    unfold QuantVisualizer.simulate
    rw [if_neg (by decide), if_pos (by decide)]
    rfl
  exact ⟨h, by rw [h]; exact fun hc => Except.noConfusion hc⟩

/-- Claim C4 (amended): on every context resolving to the finite square
well, the stub performs no computation and returns `None`; `simulate`
stores that `None` as the context's `soln` and emits no message and no
error, so the caller receives no UnsupportedSystem signal. -/
theorem finite_well_behavior (q : QuantSim)
    (h : q.sys ∈ ["2", "Finite Square Well", "FSW"]) :
    QuantVisualizer.simulate q = .ok ({ q with soln := some none }, []) := by
  have h1 : q.sys ∉ ["1", "Infinite Square Well", "ISW"] := by
    simp only [List.mem_cons, List.not_mem_nil, or_false] at h ⊢
    rcases h with h | h | h <;> rw [h] <;> decide
  unfold QuantVisualizer.simulate
  rw [if_neg h1, if_pos h]
  rfl

/-- Witness for the amended C4 at the concrete context `finWellSim`. -/
theorem finite_well_behavior_witness :
    finWellSim.sys ∈ ["2", "Finite Square Well", "FSW"] ∧
    QuantVisualizer.simulate finWellSim =
      .ok ({ finWellSim with soln := some none }, []) :=
  ⟨by decide, finite_well_behavior finWellSim (by decide)⟩

/-- Claim C8: for valid mass and force constant the stored oscillator
energies are the dimensionless values `n + 1/2`; mode 0 is exactly
`1/2`. -/
theorem osc_reported_energies (q : QuantSim) (L m k dx : ℚ) (nm : ℕ)
    (hL : q.sim_params.length = some L) (hm : q.sim_params.mass = some m)
    (hk : q.sim_params.force_constant_k = some k)
    (hdx : q.sim_params.dx = some dx)
    (hnm : q.sim_params.num_modes = some nm)
    (hmpos : 0 < m) (hkpos : 0 < k) :
    ∃ s p q' es, QuantVisualizer.ParabSqWell q = .ok (s, p, q') ∧
      q'.sim_params.E_array = some es ∧
      es = (List.range (nm + 1)).map (fun n : ℕ => (n : ℝ) + 1/2) ∧
      es.head? = some ((1 : ℝ)/2) := by
  have hm' : (0 : ℝ) < (m : ℝ) := by exact_mod_cast hmpos
  have hk' : (0 : ℝ) < (k : ℝ) := by exact_mod_cast hkpos
  have hw : QuantVisualizer.angFreq k m ≠ 0 :=
    ne_of_gt (Real.sqrt_pos.mpr (div_pos hk' hm'))
  have hes : QuantVisualizer.oscStoredEnergies k m nm =
      (List.range (nm + 1)).map (fun n : ℕ => (n : ℝ) + 1/2) := by
    unfold QuantVisualizer.oscStoredEnergies QuantVisualizer.oscEnergy
      QuantVisualizer.hbar
    rw [List.map_map]
    have hfun : ((fun e => e / QuantVisualizer.angFreq k m) ∘
        fun n : ℕ => ((n : ℝ) + 0.5) * 1 * QuantVisualizer.angFreq k m) =
        fun n : ℕ => (n : ℝ) + 1/2 := by
      funext n
      show ((n : ℝ) + 0.5) * 1 * QuantVisualizer.angFreq k m /
        QuantVisualizer.angFreq k m = (n : ℝ) + 1/2
      rw [mul_one, mul_div_assoc, div_self hw, mul_one]
      norm_num
    rw [hfun]
  refine ⟨_, _, _, QuantVisualizer.oscStoredEnergies k m nm,
    QuantVisualizer.ParabSqWell_eq q L m k dx nm hL hm hk hdx hnm, rfl, hes, ?_⟩
  rw [hes, List.range_succ_eq_map, List.map_cons, List.head?_cons]
  norm_num

/-- Witness for C8 with `mass = 1`, `force_constant = 1`, two modes. -/
theorem osc_reported_energies_witness :
    (0 : ℚ) < 1 ∧
    (∃ s p q' es, QuantVisualizer.ParabSqWell (oscSim 10 1 1 (1/2) 2) =
        .ok (s, p, q') ∧
      q'.sim_params.E_array = some es ∧
      es = (List.range (2 + 1)).map (fun n : ℕ => (n : ℝ) + 1/2) ∧
      es.head? = some ((1 : ℝ)/2)) :=
  ⟨by norm_num,
   osc_reported_energies (oscSim 10 1 1 (1/2) 2) 10 1 1 (1/2) 2
     rfl rfl rfl rfl rfl (by norm_num) (by norm_num)⟩

/-- Claim C9: for valid parameters the stored energy lists of both the
square well and the oscillator are strictly increasing in mode index. -/
theorem energy_levels_strict_increasing (q : QuantSim) (L m k dx : ℚ)
    (nm : ℕ)
    (hL : q.sim_params.length = some L) (hm : q.sim_params.mass = some m)
    (hk : q.sim_params.force_constant_k = some k)
    (hdx : q.sim_params.dx = some dx)
    (hnm : q.sim_params.num_modes = some nm)
    (hmpos : 0 < m) (hLpos : 0 < L) (hkpos : 0 < k) :
    (∃ s p q', QuantVisualizer.InfSqWell q = .ok (s, p, q') ∧
      ∃ es, q'.sim_params.E_array = some es ∧ List.Pairwise (· < ·) es) ∧
    (∃ s p q', QuantVisualizer.ParabSqWell q = .ok (s, p, q') ∧
      ∃ es, q'.sim_params.E_array = some es ∧ List.Pairwise (· < ·) es) := by
  have hm' : (0 : ℝ) < (m : ℝ) := by exact_mod_cast hmpos
  have hL' : (0 : ℝ) < (L : ℝ) := by exact_mod_cast hLpos
  have hk' : (0 : ℝ) < (k : ℝ) := by exact_mod_cast hkpos
  constructor
  · refine ⟨_, _, _, QuantVisualizer.InfSqWell_eq q L m dx nm hL hm hdx hnm,
      _, rfl, ?_⟩
    unfold QuantVisualizer.wellEnergies
    rw [List.pairwise_map, List.pairwise_map]
    refine (List.pairwise_lt_range nm).imp ?_
    intro a b hab
    unfold QuantVisualizer.wellEnergy QuantVisualizer.hbar
    have hd : (0 : ℝ) < 2 * (m : ℝ) * (L : ℝ) ^ 2 :=
      mul_pos (mul_pos two_pos hm') (pow_pos hL' 2)
    rw [div_lt_div_iff_of_pos_right hd]
    have hcast : ((a + 1 : ℕ) : ℝ) < ((b + 1 : ℕ) : ℝ) := by
      exact_mod_cast Nat.succ_lt_succ hab
    have h1 : ((a + 1 : ℕ) : ℝ) * Real.pi * 1 < ((b + 1 : ℕ) : ℝ) * Real.pi * 1 := by
      nlinarith [Real.pi_pos]
    exact pow_lt_pow_left₀ h1 (by positivity) two_ne_zero
  · refine ⟨_, _, _, QuantVisualizer.ParabSqWell_eq q L m k dx nm hL hm hk hdx hnm,
      _, rfl, ?_⟩
    unfold QuantVisualizer.oscStoredEnergies QuantVisualizer.oscEnergy
      QuantVisualizer.hbar
    rw [List.map_map, List.pairwise_map]
    have hw : (0 : ℝ) < QuantVisualizer.angFreq k m :=
      Real.sqrt_pos.mpr (div_pos hk' hm')
    refine (List.pairwise_lt_range (nm + 1)).imp ?_
    intro a b hab
    show ((a : ℝ) + 0.5) * 1 * QuantVisualizer.angFreq k m /
        QuantVisualizer.angFreq k m <
      ((b : ℝ) + 0.5) * 1 * QuantVisualizer.angFreq k m /
        QuantVisualizer.angFreq k m
    rw [div_lt_div_iff_of_pos_right hw, mul_lt_mul_right hw, mul_one, mul_one]
    have : (a : ℝ) < (b : ℝ) := by exact_mod_cast hab
    linarith

/-- Witness for C9 at a concrete valid parameter set. -/
theorem energy_levels_strict_increasing_witness :
    (0 : ℚ) < 10 ∧
    ((∃ s p q', QuantVisualizer.InfSqWell (oscSim 10 1 1 (1/2) 2) =
        .ok (s, p, q') ∧
      ∃ es, q'.sim_params.E_array = some es ∧ List.Pairwise (· < ·) es) ∧
    (∃ s p q', QuantVisualizer.ParabSqWell (oscSim 10 1 1 (1/2) 2) =
        .ok (s, p, q') ∧
      ∃ es, q'.sim_params.E_array = some es ∧ List.Pairwise (· < ·) es)) :=
  ⟨by norm_num,
   energy_levels_strict_increasing (oscSim 10 1 1 (1/2) 2) 10 1 1 (1/2) 2
     rfl rfl rfl rfl rfl (by norm_num) (by norm_num) (by norm_num)⟩

/-- A fresh `SimPlayground`-style square-well context: `length` lives in
`exp_vals`, the rest in `sim_params`. -/
def spWellSim (L dx : ℚ) (nm : ℕ) : QuantSim :=
  { sys := "ISW", exp_vals_length := some L,
    sim_params := { dx := some dx, num_modes := some nm } }

/-- Claim C10: on contexts supplying the same positive length, the same
`dx` and the same `num_modes ≥ 1` (the QuantVisualizer version also
requires `mass` to be present, though its value is unused by the
wavefunctions), the two square-well implementations return identical
solution and probability lists and store identical grids. -/
theorem infsqwell_equivalence (q1 q2 : QuantSim) (L m dx : ℚ) (nm : ℕ)
    (_hLpos : 0 < L) (_hnm1 : 1 ≤ nm)
    (h1L : q1.exp_vals_length = some L) (h1dx : q1.sim_params.dx = some dx)
    (h1nm : q1.sim_params.num_modes = some nm)
    (h2L : q2.sim_params.length = some L) (h2m : q2.sim_params.mass = some m)
    (h2dx : q2.sim_params.dx = some dx)
    (h2nm : q2.sim_params.num_modes = some nm) :
    ∃ s p q1' q2', SimPlayground.InfSqWell q1 = .ok (s, p, q1') ∧
      QuantVisualizer.InfSqWell q2 = .ok (s, p, q2') ∧
      q1'.sim_params.x_vals = some (QuantVisualizer.x_vals_isw L dx) ∧
      q2'.sim_params.x_vals = some (QuantVisualizer.x_vals_isw L dx) := by
  have hs : SimPlayground.spSolns L dx nm = QuantVisualizer.wellSolns L dx nm := by
    unfold SimPlayground.spSolns SimPlayground.knArray
      QuantVisualizer.wellSolns QuantVisualizer.wellAmplitude
    rw [List.map_map]
    rfl
  have hp : SimPlayground.spProbs L dx nm = QuantVisualizer.wellProbs L dx nm := by
    unfold SimPlayground.spProbs QuantVisualizer.wellProbs
    rw [hs]
  have e1 := SimPlayground.spInfSqWell_eq q1 L dx nm h1L h1dx h1nm
  rw [hs, hp] at e1
  exact ⟨QuantVisualizer.wellSolns L dx nm, QuantVisualizer.wellProbs L dx nm,
    _, _, e1, QuantVisualizer.InfSqWell_eq q2 L m dx nm h2L h2m h2dx h2nm,
    rfl, rfl⟩

/-- Witness for C10 at concrete twin contexts. -/
theorem infsqwell_equivalence_witness :
    (0 : ℚ) < 1 ∧
    (∃ s p q1' q2',
      SimPlayground.InfSqWell (spWellSim 1 (1/2) 2) = .ok (s, p, q1') ∧
      QuantVisualizer.InfSqWell (wellSim 1 1 (1/2) 2) = .ok (s, p, q2') ∧
      q1'.sim_params.x_vals = some (QuantVisualizer.x_vals_isw 1 (1/2)) ∧
      q2'.sim_params.x_vals = some (QuantVisualizer.x_vals_isw 1 (1/2))) :=
  ⟨by norm_num,
   infsqwell_equivalence (spWellSim 1 (1/2) 2) (wellSim 1 1 (1/2) 2) 1 1 (1/2) 2
     (by norm_num) (by norm_num) rfl rfl rfl rfl rfl rfl rfl⟩

/-- `pyInt` agrees with the floor on nonnegative arguments. -/
theorem pyInt_nonneg_eq {q : ℚ} (h : 0 ≤ q) : pyInt q = ⌊q⌋ := if_pos h

/-- Closed form of the square-well grid for `0 < dx ≤ L`: it is the
uniform subdivision of `[0, L]` into `⌊L/dx⌋` steps. -/
theorem x_vals_isw_eq (L dx : ℚ) (hL : 0 < L) (hdx : 0 < dx) (hle : dx ≤ L) :
    QuantVisualizer.x_vals_isw L dx =
      (List.range (⌊L / dx⌋.toNat + 1)).map
        (fun i : ℕ => L * i / (⌊L / dx⌋.toNat : ℚ)) := by
  have hfl1 : (1 : ℤ) ≤ ⌊L / dx⌋ := by
    apply Int.le_floor.mpr
    rw [le_div_iff₀ hdx]
    simpa using hle
  have hnum : (pyInt ((L + dx) / dx)).toNat = ⌊L / dx⌋.toNat + 1 := by
    have h0 : (0 : ℚ) ≤ (L + dx) / dx := by positivity
    rw [pyInt_nonneg_eq h0]
    have hq : (L + dx) / dx = L / dx + 1 := by field_simp
    rw [hq, Int.floor_add_one]
    omega
  unfold QuantVisualizer.x_vals_isw
  rw [hnum]
  unfold linspace
  rw [if_neg (by omega)]
  have hfun : (fun i : ℕ => (0 : ℚ) + (L - 0) * i /
      (((⌊L / dx⌋.toNat + 1 : ℕ) : ℚ) - 1)) =
      fun i : ℕ => L * i / (⌊L / dx⌋.toNat : ℚ) := by
    funext i
    push_cast
    ring
  rw [hfun]

/-- Claim C6 counterexample: with `length = 1` and `spatial_step = 2`
(both valid per the preconditions) the grid is `[0]`: it does not
contain the right endpoint `length`. -/
theorem well_grid_counterexample :
    QuantVisualizer.x_vals_isw 1 2 = [0] ∧
    (1 : ℚ) ∉ QuantVisualizer.x_vals_isw 1 2 := by
  have h : pyInt ((1 + 2) / 2) = 1 := by
    unfold pyInt
    rw [if_pos (by norm_num)]
    norm_num
  have hg : QuantVisualizer.x_vals_isw 1 2 = [0] := by
    unfold QuantVisualizer.x_vals_isw
    rw [h]
    show linspace 0 1 1 = [0]
    unfold linspace
    rw [if_pos (by norm_num)]
    simp [List.range_succ]
  exact ⟨hg, by rw [hg]; simp⟩

/-- Claim C6 (amended): for `0 < spatial_step ≤ length` the square-well
grid is a uniform sample of `[0, length]` containing both endpoints,
with `⌊length/spatial_step⌋ + 1` points, strictly increasing, with
constant spacing `s = length/⌊length/spatial_step⌋` satisfying
`spatial_step ≤ s < 2·spatial_step`. -/
theorem well_grid_properties (L dx : ℚ) (hL : 0 < L) (hdx : 0 < dx)
    (hle : dx ≤ L) :
    (QuantVisualizer.x_vals_isw L dx).length = ⌊L / dx⌋.toNat + 1 ∧
    (0 : ℚ) ∈ QuantVisualizer.x_vals_isw L dx ∧
    L ∈ QuantVisualizer.x_vals_isw L dx ∧
    List.Pairwise (· < ·) (QuantVisualizer.x_vals_isw L dx) ∧
    List.Chain' (fun a b => b - a = L / (⌊L / dx⌋.toNat : ℚ))
      (QuantVisualizer.x_vals_isw L dx) ∧
    dx ≤ L / (⌊L / dx⌋.toNat : ℚ) ∧
    L / (⌊L / dx⌋.toNat : ℚ) < 2 * dx := by
  have hfl1 : (1 : ℤ) ≤ ⌊L / dx⌋ := by
    apply Int.le_floor.mpr
    rw [le_div_iff₀ hdx]
    simpa using hle
  have hN1 : 1 ≤ ⌊L / dx⌋.toNat := by omega
  have hNQ : (0 : ℚ) < (⌊L / dx⌋.toNat : ℚ) := by exact_mod_cast hN1
  have hcast : ((⌊L / dx⌋.toNat : ℕ) : ℚ) = ((⌊L / dx⌋ : ℤ) : ℚ) := by
    rw [show ((⌊L / dx⌋.toNat : ℕ) : ℚ) = (((⌊L / dx⌋.toNat : ℕ) : ℤ) : ℚ) by
      push_cast; ring]
    rw [Int.toNat_of_nonneg (by omega)]
  have hNup : ((⌊L / dx⌋.toNat : ℕ) : ℚ) ≤ L / dx := by
    rw [hcast]; exact Int.floor_le _
  have hNlow : L / dx < ((⌊L / dx⌋.toNat : ℕ) : ℚ) + 1 := by
    rw [hcast]; exact_mod_cast Int.lt_floor_add_one (L / dx)
  rw [x_vals_isw_eq L dx hL hdx hle]
  refine ⟨by simp, ?_, ?_, ?_, ?_, ?_, ?_⟩
  · exact List.mem_map.mpr ⟨0, List.mem_range.mpr (by omega), by simp⟩
  · refine List.mem_map.mpr ⟨⌊L / dx⌋.toNat, List.mem_range.mpr (by omega), ?_⟩
    field_simp
  · rw [List.pairwise_map]
    refine (List.pairwise_lt_range _).imp ?_
    intro a b hab
    have hab' : (a : ℚ) < b := by exact_mod_cast hab
    rw [div_lt_div_iff_of_pos_right hNQ]
    exact mul_lt_mul_of_pos_left hab' hL
  · rw [List.chain'_map, List.chain'_range_succ]
    intro i _hi
    show L * (i + 1 : ℕ) / (⌊L / dx⌋.toNat : ℚ) -
        L * i / (⌊L / dx⌋.toNat : ℚ) = L / (⌊L / dx⌋.toNat : ℚ)
    push_cast
    field_simp
    ring
  · rw [le_div_iff₀ hNQ]
    rw [le_div_iff₀ hdx] at hNup
    linarith
  · rw [div_lt_iff₀ hNQ]
    have h2N : L / dx < 2 * (⌊L / dx⌋.toNat : ℚ) := by
      have hge1 : (1 : ℚ) ≤ (⌊L / dx⌋.toNat : ℚ) := by exact_mod_cast hN1
      linarith
    rw [div_lt_iff₀ hdx] at h2N
    linarith

/-- Witness for the amended C6 at `length = 1`, `spatial_step = 1/2`. -/
theorem well_grid_properties_witness :
    (0 : ℚ) < 1 ∧
    ((QuantVisualizer.x_vals_isw 1 (1/2)).length = ⌊(1 : ℚ) / (1/2)⌋.toNat + 1 ∧
    (0 : ℚ) ∈ QuantVisualizer.x_vals_isw 1 (1/2) ∧
    (1 : ℚ) ∈ QuantVisualizer.x_vals_isw 1 (1/2) ∧
    List.Pairwise (· < ·) (QuantVisualizer.x_vals_isw 1 (1/2)) ∧
    List.Chain' (fun a b => b - a = 1 / (⌊(1 : ℚ) / (1/2)⌋.toNat : ℚ))
      (QuantVisualizer.x_vals_isw 1 (1/2)) ∧
    (1/2 : ℚ) ≤ 1 / (⌊(1 : ℚ) / (1/2)⌋.toNat : ℚ) ∧
    1 / (⌊(1 : ℚ) / (1/2)⌋.toNat : ℚ) < 2 * (1/2)) :=
  ⟨by norm_num,
   well_grid_properties 1 (1/2) (by norm_num) (by norm_num) (by norm_num)⟩

/-- The continuum normalization integral of the square-well amplitude as
coded: for `L > 0` and mode `n ≥ 1`,
`∫ (sqrt(L/2)·sin(nπx/L))² dx over [0, L] = L²/4` (not 1: the
normalized constant would be `sqrt(2/L)`). -/
theorem well_probability_integral (L : ℝ) (hL : 0 < L) (n : ℕ) (hn : 1 ≤ n) :
    ∫ x in (0:ℝ)..L, (QuantVisualizer.wellAmplitude L n x) ^ 2 = L ^ 2 / 4 := by
  have hnR : (0 : ℝ) < (n : ℝ) := by exact_mod_cast hn
  have hcpos : (0 : ℝ) < Real.pi * n / L :=
    div_pos (mul_pos Real.pi_pos hnR) hL
  have hc : Real.pi * n / L ≠ 0 := ne_of_gt hcpos
  have h1 : ∀ x : ℝ, (QuantVisualizer.wellAmplitude L n x) ^ 2
      = (L/2) * Real.sin (Real.pi * n / L * x) ^ 2 := by
    intro x
    unfold QuantVisualizer.wellAmplitude
    rw [mul_pow, Real.sq_sqrt (by positivity : (0:ℝ) ≤ L/2)]
  rw [intervalIntegral.integral_congr (fun x _ => h1 x),
    intervalIntegral.integral_const_mul,
    intervalIntegral.integral_comp_mul_left (fun x => Real.sin x ^ 2) hc,
    mul_zero, div_mul_cancel₀ _ (ne_of_gt hL), integral_sin_sq,
    Real.sin_zero, mul_comm Real.pi (n : ℝ), Real.sin_nat_mul_pi,
    smul_eq_mul]
  field_simp
  ring

/-- Claim C1: the amplitude is `sqrt(length/2)·sin(nπx/length)` as the
code writes it (this is the definition `wellAmplitude`, sampled at each
grid point by `InfSqWell`), but that constant does not normalize the
state: at `length = 1`, mode 1, the continuum integral of the squared
amplitude over `[0, length]` is `1/4`, not 1.  The code's docstring
promises a normalized probability density; the normalizing constant
would be `sqrt(2/length)`. -/
theorem well_normalization_bug :
    (∫ x in (0:ℝ)..1, (QuantVisualizer.wellAmplitude 1 1 x) ^ 2) = 1/4 ∧
    ((1:ℝ)/4) ≠ 1 := by
  constructor
  · have h := well_probability_integral 1 one_pos 1 le_rfl
    norm_num at h
    convert h using 2
  · norm_num
